import Mathlib

/-!
Verification of the stock-briefing signal evaluation engine: a shallow
embedding of the decision functions of `daily_stock_checkin.py` and
`insider_activity.py` (guardrail evaluator, cadence scheduler,
cluster-selling detector), with theorems settling the specified behavior.

Numeric modelling: Python floats are embedded as exact rationals (`ℚ`),
integers as `ℤ`/`ℕ`.  Calendar dates are `(year, month, day)` records;
`date` subtraction, ordering and `timedelta` stepping all factor through the
standard civil day count (`dayNumber` below).
-/

/-! ## Calendar dates -/

/-- A calendar date as held by a Python `datetime.date`: year, month, day. -/
structure PyDate where
  year : ℕ
  month : ℕ
  day : ℕ
deriving DecidableEq, Repr

/-- Leap-year rule of the proleptic Gregorian calendar (as in Python's
`calendar`/`datetime`). -/
def isLeapYear (y : ℕ) : Bool :=
  (y % 4 == 0 && y % 100 != 0) || y % 400 == 0

/-- Number of days in a month, used by `datetime.date` validation. -/
def monthLength (y m : ℕ) : ℕ :=
  if m = 2 then (if isLeapYear y then 29 else 28)
  else if m = 4 ∨ m = 6 ∨ m = 9 ∨ m = 11 then 30 else 31

/-- Position of a date on the proleptic Gregorian timeline: the number of days
since 0000-03-01, by the standard civil-date algorithm.  `datetime.date`
subtraction (`(a - b).days`), ordering, and `a + timedelta(days = n)` all
correspond to arithmetic on this count. -/
def dayNumber (dt : PyDate) : ℕ :=
  let yAdj := if dt.month ≤ 2 then dt.year - 1 else dt.year
  let era := yAdj / 400
  let yoe := yAdj % 400
  let mp := if dt.month ≤ 2 then dt.month + 9 else dt.month - 3
  let doy := (153 * mp + 2) / 5 + (dt.day - 1)
  let doe := yoe * 365 + yoe / 4 - yoe / 100 + doy
  era * 146097 + doe

/-- Python `date.weekday()`: Monday = 0, ..., Sunday = 6. -/
def pyWeekday (dt : PyDate) : ℕ :=
  (dayNumber dt + 2) % 7

example : pyWeekday ⟨1970, 1, 1⟩ = 3 := by decide
example : pyWeekday ⟨2000, 3, 1⟩ = 2 := by decide
example : pyWeekday ⟨2026, 10, 12⟩ = 0 := by decide
example : dayNumber ⟨2026, 3, 1⟩ - dayNumber ⟨2026, 2, 28⟩ = 1 := by decide
example : dayNumber ⟨2024, 3, 1⟩ - dayNumber ⟨2024, 2, 29⟩ = 1 := by decide
example : dayNumber ⟨2026, 1, 1⟩ - dayNumber ⟨2025, 12, 31⟩ = 1 := by decide

/-- Day difference `(a - b).days` of two Python dates. -/
def dateDiffDays (a b : PyDate) : ℤ :=
  (dayNumber a : ℤ) - (dayNumber b : ℤ)

/-- Zero-padded decimal rendering, for `date.isoformat()` and fraction digits. -/
def padNum (width n : ℕ) : String :=
  let s := toString n
  String.mk (List.replicate (width - s.length) '0') ++ s

/-- Python `date.isoformat()`: `YYYY-MM-DD`. -/
def isoformat (dt : PyDate) : String :=
  padNum 4 dt.year ++ "-" ++ padNum 2 dt.month ++ "-" ++ padNum 2 dt.day

/-! ## String utilities mirroring the Python string operations used -/

/-- Substring containment over character lists (Python `in` on `str`). -/
def charsContain (pat : List Char) : List Char → Bool
  | [] => pat.isEmpty
  | c :: rest => pat.isPrefixOf (c :: rest) || charsContain pat rest

/-- Python `pat in hay` for strings. -/
def strContains (hay pat : String) : Bool :=
  charsContain pat.data hay.data

example : strContains "P - Purchase" "Sale" = false := by decide
example : strContains "S - Sale+OE" "Sale" = true := by decide

/-- Decimal digit test (ASCII). -/
def isDigitChar (c : Char) : Bool :=
  '0' ≤ c && c ≤ '9'

/-- Value of a digit string (assumes `isDigitChar` holds of every character). -/
def digitsVal (cs : List Char) : ℕ :=
  cs.foldl (fun n c => 10 * n + (c.toNat - 48)) 0

/-- Accumulator form of splitting a character list at `'-'` separators. -/
def splitDashAux : List Char → List Char → List (List Char)
  | [], acc => [acc.reverse]
  | c :: rest, acc =>
    if c = '-' then acc.reverse :: splitDashAux rest []
    else splitDashAux rest (c :: acc)

/-- Python `str.split("-")`, over character lists. -/
def splitDash (cs : List Char) : List (List Char) :=
  splitDashAux cs []

example : splitDash "2026-01-01".data = ["2026".data, "01".data, "01".data] := by decide

/-- Python whitespace test for `str.strip()` (ASCII whitespace). -/
def isSpaceChar (c : Char) : Bool :=
  c = ' ' || c = '\t' || c = '\n' || c = '\r' || c = '\x0b' || c = '\x0c'

/-- Python `str.strip()` over character lists. -/
def stripChars (cs : List Char) : List Char :=
  ((cs.dropWhile isSpaceChar).reverse.dropWhile isSpaceChar).reverse

/-- Python `str.strip()`. -/
def stripString (s : String) : String :=
  ⟨stripChars s.data⟩

/-- ASCII lower-casing of one character (the config day names are ASCII). -/
def lowerChar (c : Char) : Char :=
  if 'A' ≤ c && c ≤ 'Z' then Char.ofNat (c.toNat + 32) else c

/-- Python `str.lower()` (ASCII fragment). -/
def lowerString (s : String) : String :=
  ⟨s.data.map lowerChar⟩

example : lowerString (stripString " FriDay ") = "friday" := by decide

/-! ## Insider transactions and `detect_cluster_selling` (`insider_activity.py`) -/

/-- One row scraped from the OpenInsider table, as built by
`fetch_insider_data`: the dates are raw strings that may fail to parse. -/
structure InsiderTransaction where
  filing_date : String
  trade_date : String
  insider_name : String
  title : String
  trade_type : String
  price : Option ℚ
  shares : Option ℤ
  value : Option ℚ
  filing_url : String

/-- Python `datetime.strptime(text, "%Y-%m-%d").date()` as applied to trade
dates: `%Y` is exactly four digits, `%m` and `%d` are one or two digits in
range, and the result must be a valid calendar date in years 1..9999, else
`ValueError` (here `none`). -/
def parse_trade_date (s : String) : Option PyDate :=
  match splitDash s.data with
  | [ys, ms, ds] =>
    if ys.length = 4 && ys.all isDigitChar &&
       (ms.length = 1 || ms.length = 2) && ms.all isDigitChar &&
       (ds.length = 1 || ds.length = 2) && ds.all isDigitChar then
      let y := digitsVal ys
      let m := digitsVal ms
      let d := digitsVal ds
      if 1 ≤ y ∧ 1 ≤ m ∧ m ≤ 12 ∧ 1 ≤ d ∧ d ≤ monthLength y m then
        some ⟨y, m, d⟩
      else none
    else none
  | _ => none

example : parse_trade_date "2026-01-07" = some ⟨2026, 1, 7⟩ := by decide
example : parse_trade_date "2026-02-30" = none := by decide
example : parse_trade_date "not a date" = none := by decide
example : parse_trade_date "2026-1-7" = some ⟨2026, 1, 7⟩ := by decide

/-- Sale-marker test from `detect_cluster_selling`:
`"Sale" in trade_type or "S -" in trade_type`. -/
def isSaleType (t : String) : Bool :=
  strContains t "Sale" || strContains t "S -"

/-- The `sells` list of `detect_cluster_selling`: sale-marked rows whose trade
date parses, as `(date, insider_name)` pairs in input order. -/
def toSells (transactions : List InsiderTransaction) : List (PyDate × String) :=
  transactions.filterMap fun t =>
    if isSaleType t.trade_type then
      (parse_trade_date t.trade_date).map fun d => (d, t.insider_name)
    else none

/-- The sort comparison `key=lambda x: x[0]` (ascending by trade date). -/
def sellLe (a b : PyDate × String) : Bool :=
  dayNumber a.1 ≤ dayNumber b.1

/-- Insider names accumulated by the inner scan of `detect_cluster_selling`
starting at index `i`: walk forward from `i` while the date is within
`sells[i][0] + timedelta(days=7)`, stopping at the first date beyond the
window (valid because the list is sorted). -/
def windowNames (sells : List (PyDate × String)) (i : ℕ) : List String :=
  match sells.drop i with
  | [] => []
  | (d, _) :: _ =>
    ((sells.drop i).takeWhile fun p => dayNumber p.1 ≤ dayNumber d + 7).map Prod.snd

/-- `detect_cluster_selling` from `insider_activity.py`: true when 3+ unique
insiders sold within some 7-day window (the `set` size is the deduplicated
name count). -/
def detect_cluster_selling (transactions : List InsiderTransaction) : Bool :=
  let sells := toSells transactions
  if sells.length < 3 then false
  else
    let sorted := sells.mergeSort sellLe
    (List.range sorted.length).any fun i => 3 ≤ (windowNames sorted i).dedup.length

/-! ## Data model of `daily_stock_checkin.py` -/

/-- A watchlist entry (`WatchlistItem` dataclass). -/
structure WatchlistItem where
  ticker : String
  company : String
  earnings_date : Option PyDate

/-- A per-ticker market snapshot (`Snapshot` dataclass). -/
structure Snapshot where
  ticker : String
  company : String
  price : Option ℚ
  price_change_pct : Option ℚ
  market_cap : Option ℤ
  pe_trailing : Option ℚ
  pe_forward : Option ℚ
  ev_ebitda : Option ℚ
  ps_ratio : Option ℚ
  last_trade_date : Option PyDate
  error : Option String

/-! ## Price-change derivation -/

/-- Python 3 `round` to an integer: round half to even. -/
def roundHalfEven (q : ℚ) : ℤ :=
  let f := ⌊q⌋
  let r := q - f
  if r < 1/2 then f
  else if 1/2 < r then f + 1
  else if 2 ∣ f then f else f + 1

/-- Python `round(x, 2)` on the exact rational value. -/
def round2 (q : ℚ) : ℚ :=
  (roundHalfEven (q * 100) : ℚ) / 100

/-- `compute_price_change_pct` from `daily_stock_checkin.py`, on exact
rationals (the float literal `0.01` read as `1/100`). -/
def compute_price_change_pct (current previous_close : Option ℚ) : Option ℚ :=
  match current, previous_close with
  | some c, some p =>
    if p = 0 then none
    else if c = p then none
    else if p < c * (1/100) ∨ c * 100 < p then none
    else some (round2 ((c - p) / p * 100))
  | _, _ => none

/-! ## Guardrail evaluator -/

/-- Python truthiness of the optional `error` string: `None` and `""` are
falsy, every other string is truthy. -/
def truthyStr : Option String → Bool
  | none => false
  | some s => !(s == "")

/-- Tickers counted by the missing-data rule:
`[s.ticker for s in snapshots if s.error or s.price is None]`. -/
def missingTickers (snapshots : List Snapshot) : List String :=
  (snapshots.filter fun s => truthyStr s.error || s.price.isNone).map Snapshot.ticker

/-- Trigger list contributed by the missing-data rule (Python `sorted` on
strings is ascending lexicographic by code point). -/
def missingTriggers (snapshots : List Snapshot) (max_missing_tickers : ℤ) : List String :=
  let missing := missingTickers snapshots
  if (missing.length : ℤ) > max_missing_tickers then
    ["Missing critical data for " ++ toString missing.length ++ " ticker(s): " ++
      String.intercalate ", " (missing.mergeSort fun a b => decide (a ≤ b))]
  else []

/-- Per-snapshot step of the staleness rule: a snapshot with both
`last_trade_date` and `price` present contributes an entry when
`(run_date - last_trade_date).days > stale_data_max_days`. -/
def staleEntry (stale_data_max_days : ℤ) (run_date : PyDate) (snap : Snapshot) :
    Option String :=
  match snap.last_trade_date, snap.price with
  | some ltd, some _ =>
    if dateDiffDays run_date ltd > stale_data_max_days then
      some (snap.ticker ++ " (" ++ isoformat ltd ++ ")")
    else none
  | _, _ => none

/-- Entries collected by the staleness rule, in snapshot order. -/
def staleEntries (snapshots : List Snapshot) (stale_data_max_days : ℤ)
    (run_date : PyDate) : List String :=
  snapshots.filterMap (staleEntry stale_data_max_days run_date)

/-- Trigger list contributed by the staleness rule. -/
def staleTriggers (snapshots : List Snapshot) (stale_data_max_days : ℤ)
    (run_date : PyDate) : List String :=
  let stale := staleEntries snapshots stale_data_max_days run_date
  if stale ≠ [] then
    ["Stale market timestamps beyond allowed window: " ++ String.intercalate ", " stale]
  else []

/-- Fixed-point decimal rendering of a rational (Python `format(x, '.2f')`
style: `prec` fraction digits, round half to even, optional forced sign). -/
def formatFixed (q : ℚ) (prec : ℕ) (forceSign : Bool) : String :=
  let scaled := roundHalfEven (q * ((10 : ℚ) ^ prec))
  let sign := if scaled < 0 then "-" else if forceSign then "+" else ""
  let a := scaled.natAbs
  sign ++ toString (a / 10 ^ prec) ++
    (if prec = 0 then "" else "." ++ padNum prec (a % 10 ^ prec))

/-- Entries collected by the large-move rule, in snapshot order. -/
def largeMoveEntries (snapshots : List Snapshot) (price_move_threshold : ℚ) : List String :=
  snapshots.filterMap fun snap =>
    match snap.price_change_pct with
    | none => none
    | some change =>
      if |change| ≥ price_move_threshold then
        some (snap.ticker ++ " (" ++ formatFixed change 2 true ++ "%)")
      else none

/-- Trigger list contributed by the large-move rule. -/
def largeMoveTriggers (snapshots : List Snapshot) (price_move_threshold : ℚ) : List String :=
  let large_moves := largeMoveEntries snapshots price_move_threshold
  if large_moves ≠ [] then
    ["Large daily move >= " ++ formatFixed price_move_threshold 1 false ++ "%: " ++
      String.intercalate ", " large_moves]
  else []

/-- Relation label of the earnings-window rule for
`delta = (earnings_date - run_date).days`. -/
def earningsRelation (delta : ℤ) : String :=
  if delta < 0 then toString delta.natAbs ++ " day(s) ago"
  else if delta > 0 then "in " ++ toString delta.natAbs ++ " day(s)"
  else "today"

/-- Description appended to `earnings_due` for one due watchlist item. -/
def earningsDescription (item : WatchlistItem) (ed : PyDate) (run_date : PyDate) : String :=
  item.ticker ++ " (" ++ item.company ++ ") earnings " ++ isoformat ed ++
    " [" ++ earningsRelation (dateDiffDays ed run_date) ++ "]"

/-- Per-item step of the earnings-window rule: an item with a known earnings
date is due when `abs((earnings_date - run_date).days)` is within the window. -/
def earningsEntry (earnings_window_days : ℤ) (run_date : PyDate)
    (item : WatchlistItem) : Option String :=
  match item.earnings_date with
  | none => none
  | some ed =>
    if |dateDiffDays ed run_date| ≤ earnings_window_days then
      some (earningsDescription item ed run_date)
    else none

/-- The `earnings_due` list: due watchlist items in watchlist order. -/
def earningsDueList (watchlist : List WatchlistItem) (earnings_window_days : ℤ)
    (run_date : PyDate) : List String :=
  watchlist.filterMap (earningsEntry earnings_window_days run_date)

/-- Trigger list contributed by the earnings-window rule. -/
def earningsTriggers (earnings_due : List String) : List String :=
  if earnings_due ≠ [] then
    ["Earnings window active: " ++ String.intercalate "; " earnings_due]
  else []

/-- `evaluate_guardrails` from `daily_stock_checkin.py`, after the four config
values have been coerced by `int(...)`/`float(...)` (see
`evaluate_guardrails_checked` for that step).  The source appends each rule's
triggers in this fixed order, then derives the status: `"AUTO CLEAR"` unless
the trigger list is non-empty, in which case `"MANUAL REVIEW REQUIRED"`. -/
def evaluate_guardrails (snapshots : List Snapshot) (watchlist : List WatchlistItem)
    (max_missing_tickers stale_data_max_days : ℤ) (price_move_threshold : ℚ)
    (earnings_window_days : ℤ) (run_date : PyDate) :
    String × List String × List String :=
  let earnings_due := earningsDueList watchlist earnings_window_days run_date
  let triggered :=
    missingTriggers snapshots max_missing_tickers ++
    staleTriggers snapshots stale_data_max_days run_date ++
    largeMoveTriggers snapshots price_move_threshold ++
    earningsTriggers earnings_due
  let status := if triggered = [] then "AUTO CLEAR" else "MANUAL REVIEW REQUIRED"
  (status, triggered, earnings_due)

/-! ## Config coercion (`int(...)` / `float(...)` on YAML values) -/

/-- A YAML-loaded configuration value, as a Python runtime value. -/
inductive PyVal where
  | vnone
  | vbool (b : Bool)
  | vint (n : ℤ)
  | vfloat (q : ℚ)
  | vstr (s : String)
deriving DecidableEq

/-- Digits-only parse (no sign), used by the numeric literal parses. -/
def parseDigitsOnly (cs : List Char) : Option ℕ :=
  if cs ≠ [] && cs.all isDigitChar then some (digitsVal cs) else none

/-- Python `int(s)` on a string: optional sign and decimal digits after
stripping whitespace, else `ValueError`. -/
def parseIntLiteral (s : String) : Option ℤ :=
  match stripChars s.data with
  | '-' :: rest => (parseDigitsOnly rest).map fun n => -(n : ℤ)
  | '+' :: rest => (parseDigitsOnly rest).map fun n => (n : ℤ)
  | rest => (parseDigitsOnly rest).map fun n => (n : ℤ)

/-- Python `float(s)` on a string: optional sign, digits with an optional
fractional part, else `ValueError` (exponent forms are not modelled; no claim
depends on them). -/
def parseFloatLiteral (s : String) : Option ℚ :=
  let signed : List Char → (Bool × List Char) := fun cs =>
    match cs with
    | '-' :: rest => (true, rest)
    | '+' :: rest => (false, rest)
    | rest => (false, rest)
  let (neg, body) := signed (stripChars s.data)
  let q? : Option ℚ :=
    match splitDash body with
    | [_] =>
      match body.splitOn '.' with
      | [ip] => (parseDigitsOnly ip).map fun n => (n : ℚ)
      | [ip, fp] =>
        match parseDigitsOnly ip, parseDigitsOnly fp with
        | some n, some f => some ((n : ℚ) + (f : ℚ) / ((10 : ℚ) ^ fp.length))
        | _, _ => none
      | _ => none
    | _ => none
  q?.map fun q => if neg then -q else q

/-- Python `int(x)`: succeeds on bools, ints and floats (truncating toward
zero), and on strings spelling an integer; raises (`none`) on `None` and
non-numeric strings. -/
def pyInt : PyVal → Option ℤ
  | .vnone => none
  | .vbool b => some (if b then 1 else 0)
  | .vint n => some n
  | .vfloat q => some (q.num.tdiv q.den)
  | .vstr s => parseIntLiteral s

/-- Python `float(x)`: succeeds on bools, ints and floats, and on strings
spelling a decimal number; raises (`none`) on `None` and non-numeric
strings. -/
def pyFloat : PyVal → Option ℚ
  | .vnone => none
  | .vbool b => some (if b then 1 else 0)
  | .vint n => some (n : ℚ)
  | .vfloat q => some q
  | .vstr s => parseFloatLiteral s

/-- The `guardrails` mapping from the YAML config: each key may be absent,
and a present value is an arbitrary YAML scalar. -/
structure GuardrailsConfig where
  max_missing_tickers : Option PyVal
  stale_data_max_days : Option PyVal
  price_move_pct_threshold : Option PyVal
  earnings_window_days : Option PyVal

/-- `evaluate_guardrails` including its config-coercion head: the four
`int(...)`/`float(...)` calls on `guardrails.get(...)` results, then the rule
body.  A `none` result models an uncaught `ValueError`/`TypeError` escaping
the function. -/
def evaluate_guardrails_checked (snapshots : List Snapshot)
    (watchlist : List WatchlistItem) (guardrails : GuardrailsConfig)
    (run_date : PyDate) : Option (String × List String × List String) := do
  let max_missing ← pyInt (guardrails.max_missing_tickers.getD (.vint 0))
  let stale_max ← pyInt (guardrails.stale_data_max_days.getD (.vint 1))
  let move_thr ← pyFloat (guardrails.price_move_pct_threshold.getD (.vfloat 7))
  let earn_win ← pyInt (guardrails.earnings_window_days.getD (.vint 1))
  pure (evaluate_guardrails snapshots watchlist max_missing stale_max move_thr
    earn_win run_date)

/-! ## Cadence scheduler (`build_due_tasks`) -/

/-- `DAY_NAME_TO_WEEKDAY.get(name, 4)`: unrecognized names default to Friday. -/
def dayNameToWeekday (s : String) : ℕ :=
  if s = "monday" then 0
  else if s = "tuesday" then 1
  else if s = "wednesday" then 2
  else if s = "thursday" then 3
  else if s = "friday" then 4
  else if s = "saturday" then 5
  else if s = "sunday" then 6
  else 4

/-- Count of weekday (Mon-Fri) dates among days `1..d` of month `(y, m)`.
`nth_business_day_of_month` walks a cursor one day at a time from
`target.replace(day=1)` while `cursor <= target`; start and target share the
month, so the cursor visits exactly days `1..target.day`, giving this
recursion over the day of month. -/
def countWeekdays (y m : ℕ) : ℕ → ℕ
  | 0 => 0
  | d + 1 => countWeekdays y m d + (if pyWeekday ⟨y, m, d + 1⟩ < 5 then 1 else 0)

/-- `nth_business_day_of_month` from `daily_stock_checkin.py`. -/
def nth_business_day_of_month (target_date : PyDate) : ℕ :=
  countWeekdays target_date.year target_date.month target_date.day

/-- The `cadence` mapping with well-typed values, per the spec's
`CadenceConfig` data model (keys may be absent; the source applies
`str(...)`, `in`, and `int(...)`, which are identities on these types). -/
structure CadenceConfig where
  weekly_review_day : Option String
  bi_monthly_days : Option (List ℤ)
  monthly_review_business_day : Option ℤ

/-- The four standing daily tasks of `build_due_tasks`. -/
def dailyTasks : List String :=
  ["Review red flags checklist for all six names.",
   "Scan 8-K filings and material company announcements.",
   "Check sell-side estimate revisions and target changes.",
   "Check hyperscaler AI capex commentary deltas (MSFT, GOOG, META, AMZN)."]

/-- The weekly review tasks of `build_due_tasks`. -/
def weeklyTasks : List String :=
  ["Review Form 4 insider buy/sell activity.",
   "Review sector flow and relative performance signals (SMH, GRID/ICLN).",
   "Review valuation drift versus your baseline thesis assumptions."]

/-- The bi-monthly tasks of `build_due_tasks`. -/
def biMonthlyTasks : List String :=
  ["Check short-interest updates and changes in crowding risk.",
   "Review options implied volatility into the next earnings windows."]

/-- The monthly tasks of `build_due_tasks`. -/
def monthlyTasks : List String :=
  ["Review macro layer: fed path, 10Y yield, and cost-of-capital pressure.",
   "Review policy/regulation changes: export controls, tariff updates, DOE/NRC updates."]

/-- The earnings-window task of `build_due_tasks`. -/
def earningsWindowTasks : List String :=
  ["Run earnings workflow: pre-read release, call notes, guidance delta, and post-call thesis check."]

/-- `build_due_tasks` from `daily_stock_checkin.py`; the Python dict literal
becomes an association list in the same key order. -/
def build_due_tasks (run_date : PyDate) (cadence_cfg : CadenceConfig)
    (earnings_due : List String) : List (String × List String) :=
  let daily := dailyTasks
  let weekly_day := lowerString (stripString (cadence_cfg.weekly_review_day.getD "Friday"))
  let weekly := if pyWeekday run_date = dayNameToWeekday weekly_day then weeklyTasks else []
  let bi_monthly_days := cadence_cfg.bi_monthly_days.getD [1, 15]
  let bi_monthly := if (run_date.day : ℤ) ∈ bi_monthly_days then biMonthlyTasks else []
  let monthly_business_day := cadence_cfg.monthly_review_business_day.getD 1
  let monthly :=
    if (nth_business_day_of_month run_date : ℤ) = monthly_business_day then monthlyTasks else []
  let earnings_window := if earnings_due ≠ [] then earningsWindowTasks else []
  [("daily", daily), ("weekly", weekly), ("bi_monthly", bi_monthly),
   ("monthly", monthly), ("earnings_window", earnings_window)]

/-! ## Characterization of `detect_cluster_selling` -/

/-- Window membership: sale record `q` lies within the 7-day window anchored
at date `d` (i.e. `d <= q.date <= d + timedelta(days=7)`). -/
def inWindow (d : PyDate) (q : PyDate × String) : Bool :=
  decide (dayNumber d ≤ dayNumber q.1) && decide (dayNumber q.1 ≤ dayNumber d + 7)

/-- Number of distinct insider names among the sale records of `sells` whose
dates lie within `[d, d + 7 days]`. -/
def distinctNamesInWindow (sells : List (PyDate × String)) (d : PyDate) : ℕ :=
  ((sells.filter (inWindow d)).map Prod.snd).toFinset.card

/-- Specification-side cluster condition: some sale record anchors a 7-day
window containing sales by at least 3 distinct insiders. -/
def clusterWitness (sells : List (PyDate × String)) : Prop :=
  ∃ p ∈ sells, 3 ≤ distinctNamesInWindow sells p.1

theorem distinctNamesInWindow_perm {l l' : List (PyDate × String)}
    (h : List.Perm l l') (d : PyDate) :
    distinctNamesInWindow l d = distinctNamesInWindow l' d := by
  unfold distinctNamesInWindow
  rw [List.toFinset_eq_of_perm _ _ ((h.filter _).map _)]

theorem clusterWitness_perm {l l' : List (PyDate × String)} (h : List.Perm l l') :
    clusterWitness l ↔ clusterWitness l' := by
  constructor <;> rintro ⟨p, hp, hc⟩
  · exact ⟨p, h.mem_iff.mp hp, by rwa [distinctNamesInWindow_perm h.symm]⟩
  · exact ⟨p, h.mem_iff.mpr hp, by rwa [distinctNamesInWindow_perm h]⟩

theorem takeWhile_eq_filter_of_sorted {c : ℕ} :
    ∀ {l : List (PyDate × String)},
      l.Pairwise (fun a b => dayNumber a.1 ≤ dayNumber b.1) →
      (l.takeWhile fun p => dayNumber p.1 ≤ c) = l.filter fun p => dayNumber p.1 ≤ c := by
  intro l
  induction l with
  | nil => intro _; rfl
  | cons a t ih =>
    intro h
    rcases List.pairwise_cons.mp h with ⟨ha, ht⟩
    by_cases hc : dayNumber a.1 ≤ c
    · simp [List.takeWhile_cons, List.filter_cons, hc, ih ht]
    · have hnil : (t.filter fun p => decide (dayNumber p.1 ≤ c)) = [] := by
        rw [List.filter_eq_nil_iff]
        intro q hq
        simp only [decide_eq_true_eq]
        intro hqc
        exact hc (le_trans (ha q hq) hqc)
      simp only [List.takeWhile_cons, List.filter_cons]
      simp [hc, hnil]

theorem windowNames_cons_zero (a : PyDate × String) (t : List (PyDate × String)) :
    windowNames (a :: t) 0 =
      ((a :: t).takeWhile fun p => dayNumber p.1 ≤ dayNumber a.1 + 7).map Prod.snd := by
  obtain ⟨d, nm⟩ := a
  rfl

theorem windowNames_cons_succ (a : PyDate × String) (t : List (PyDate × String)) (i : ℕ) :
    windowNames (a :: t) (i + 1) = windowNames t i := by
  unfold windowNames
  rfl

/-- A qualifying window found by the scan yields the spec-side witness: every
name the inner loop accumulated belongs to a sale in the window anchored at
the scanned record's date. -/
theorem witness_of_window :
    ∀ {l : List (PyDate × String)},
      l.Pairwise (fun a b => dayNumber a.1 ≤ dayNumber b.1) →
      ∀ {i : ℕ}, i < l.length → 3 ≤ (windowNames l i).dedup.length →
      ∃ p ∈ l, 3 ≤ distinctNamesInWindow l p.1 := by
  intro l hs i hi h3
  have hdrop_ne : l.drop i ≠ [] := by
    intro hnil
    rw [List.drop_eq_nil_iff] at hnil
    omega
  obtain ⟨⟨d, nm⟩, rest, hdrop⟩ : ∃ a rest, l.drop i = a :: rest := by
    cases hd : l.drop i with
    | nil => exact absurd hd hdrop_ne
    | cons a rest => exact ⟨a, rest, rfl⟩
  have hsub : List.Sublist (l.drop i) l := List.drop_sublist i l
  have hmem_d : (d, nm) ∈ l := hsub.subset (hdrop ▸ List.mem_cons_self _ _)
  have hdroplow : ∀ q ∈ l.drop i, dayNumber d ≤ dayNumber q.1 := by
    have hpair : (l.drop i).Pairwise (fun a b => dayNumber a.1 ≤ dayNumber b.1) :=
      hs.sublist hsub
    rw [hdrop] at hpair
    rcases List.pairwise_cons.mp hpair with ⟨hhead, _⟩
    intro q hq
    rw [hdrop] at hq
    rcases List.mem_cons.mp hq with rfl | hq'
    · exact le_refl _
    · exact hhead q hq'
  have hnames : windowNames l i =
      ((l.drop i).takeWhile fun p => dayNumber p.1 ≤ dayNumber d + 7).map Prod.snd := by
    unfold windowNames
    rw [hdrop]
  refine ⟨(d, nm), hmem_d, ?_⟩
  show 3 ≤ distinctNamesInWindow l d
  have hsubset : (windowNames l i).toFinset ⊆
      ((l.filter (inWindow d)).map Prod.snd).toFinset := by
    intro x hx
    rw [List.mem_toFinset] at hx ⊢
    rw [hnames, List.mem_map] at hx
    obtain ⟨q, hq, hqx⟩ := hx
    have hq_up : dayNumber q.1 ≤ dayNumber d + 7 := by
      have := List.mem_takeWhile_imp hq
      simpa using this
    have hq_drop : q ∈ l.drop i := (List.takeWhile_sublist _).subset hq
    have hq_mem : q ∈ l := hsub.subset hq_drop
    have hq_low : dayNumber d ≤ dayNumber q.1 := hdroplow q hq_drop
    rw [List.mem_map]
    refine ⟨q, ?_, hqx⟩
    rw [List.mem_filter]
    exact ⟨hq_mem, by simp [inWindow, hq_low, hq_up]⟩
  have hcard : (windowNames l i).toFinset.card ≤ distinctNamesInWindow l d :=
    Finset.card_le_card hsubset
  have h3' : 3 ≤ (windowNames l i).toFinset.card := by
    rw [List.card_toFinset]
    exact h3
  omega

/-- Conversely, the spec-side witness forces the scan to find a qualifying
window: the first scanned record with the witness's date anchors one. -/
theorem window_of_witness :
    ∀ {l : List (PyDate × String)},
      l.Pairwise (fun a b => dayNumber a.1 ≤ dayNumber b.1) →
      ∀ p ∈ l, 3 ≤ distinctNamesInWindow l p.1 →
      ∃ i < l.length, 3 ≤ (windowNames l i).dedup.length := by
  intro l
  induction l with
  | nil => intro _ p hp; exact absurd hp (List.not_mem_nil p)
  | cons a t ih =>
    intro hs p hp hcard
    rcases List.pairwise_cons.mp hs with ⟨ha, ht⟩
    by_cases hda : dayNumber p.1 ≤ dayNumber a.1
    · -- the head's date already reaches the witness date: window at index 0
      have hlow : dayNumber a.1 ≤ dayNumber p.1 := by
        rcases List.mem_cons.mp hp with rfl | hp'
        · exact le_refl _
        · exact ha p hp'
      have heq : dayNumber a.1 = dayNumber p.1 := le_antisymm hlow hda
      refine ⟨0, by simp, ?_⟩
      have hfilter_eq : (a :: t).filter (inWindow p.1) =
          (a :: t).filter fun q => dayNumber q.1 ≤ dayNumber a.1 + 7 := by
        apply List.filter_congr
        intro q hq
        have hlowq : dayNumber a.1 ≤ dayNumber q.1 := by
          rcases List.mem_cons.mp hq with rfl | hq'
          · exact le_refl _
          · exact ha q hq'
        have h1 : dayNumber p.1 ≤ dayNumber q.1 := by rw [← heq]; exact hlowq
        have h2 : dayNumber p.1 + 7 = dayNumber a.1 + 7 := by rw [heq]
        simp [inWindow, h1, h2]
      have htake : windowNames (a :: t) 0 =
          ((a :: t).filter (inWindow p.1)).map Prod.snd := by
        rw [windowNames_cons_zero, takeWhile_eq_filter_of_sorted hs, hfilter_eq]
      rw [htake, ← List.card_toFinset]
      exact hcard
    · -- the head is strictly before the window: recurse into the tail
      have hp' : p ∈ t := by
        rcases List.mem_cons.mp hp with rfl | hp'
        · exact absurd (le_refl _) hda
        · exact hp'
      have hfilter_eq : (a :: t).filter (inWindow p.1) = t.filter (inWindow p.1) := by
        rw [List.filter_cons]
        have : inWindow p.1 a = false := by
          simp only [inWindow, Bool.and_eq_false_iff, decide_eq_false_iff_not]
          left
          exact hda
        simp [this]
      have hcard' : 3 ≤ distinctNamesInWindow t p.1 := by
        unfold distinctNamesInWindow at hcard ⊢
        rwa [hfilter_eq] at hcard
      obtain ⟨i, hi, hwin⟩ := ih ht p hp' hcard'
      exact ⟨i + 1, by simpa using Nat.succ_lt_succ hi, by rwa [windowNames_cons_succ]⟩

theorem sellLe_trans (a b c : PyDate × String) :
    sellLe a b → sellLe b c → sellLe a c := by
  simp only [sellLe, decide_eq_true_eq]
  omega

theorem sellLe_total (a b : PyDate × String) : sellLe a b || sellLe b a := by
  simp only [sellLe, Bool.or_eq_true, decide_eq_true_eq]
  omega

/-- Full characterization of `detect_cluster_selling`: it returns `true`
exactly when at least 3 valid sale records remain after filtering and some
record's date anchors a 7-day window containing sales by at least 3 distinct
insiders. -/
theorem detect_cluster_selling_iff (ts : List InsiderTransaction) :
    detect_cluster_selling ts = true ↔
      3 ≤ (toSells ts).length ∧ clusterWitness (toSells ts) := by
  unfold detect_cluster_selling
  by_cases hlen : (toSells ts).length < 3
  · simp only [if_pos hlen]
    constructor
    · intro h; exact absurd h (by simp)
    · intro ⟨h3, _⟩; omega
  · simp only [if_neg hlen]
    have hperm : List.Perm ((toSells ts).mergeSort sellLe) (toSells ts) :=
      List.mergeSort_perm (toSells ts) sellLe
    have hpair : ((toSells ts).mergeSort sellLe).Pairwise
        (fun a b => dayNumber a.1 ≤ dayNumber b.1) := by
      have := List.sorted_mergeSort sellLe_trans sellLe_total (toSells ts)
      exact this.imp (by intro a b h; simpa [sellLe] using h)
    constructor
    · intro h
      rw [List.any_eq_true] at h
      obtain ⟨i, hi, hwin⟩ := h
      rw [List.mem_range] at hi
      rw [decide_eq_true_eq] at hwin
      obtain ⟨p, hp, hc⟩ := witness_of_window hpair hi hwin
      refine ⟨by omega, ⟨p, hperm.mem_iff.mp hp, ?_⟩⟩
      rwa [distinctNamesInWindow_perm hperm.symm]
    · rintro ⟨h3, p, hp, hc⟩
      obtain ⟨i, hi, hwin⟩ :=
        window_of_witness hpair p (hperm.mem_iff.mpr hp)
          (by rwa [distinctNamesInWindow_perm hperm])
      rw [List.any_eq_true]
      exact ⟨i, List.mem_range.mpr hi, by simpa using hwin⟩

/-! ## Business-day arithmetic for the cadence scheduler -/

theorem dayNumber_succ (y m d : ℕ) (hd : 1 ≤ d) :
    dayNumber ⟨y, m, d + 1⟩ = dayNumber ⟨y, m, d⟩ + 1 := by
  by_cases h : m ≤ 2 <;> simp [dayNumber, h] <;> omega

theorem pyWeekday_succ (y m d : ℕ) (hd : 1 ≤ d) :
    pyWeekday ⟨y, m, d + 1⟩ = (pyWeekday ⟨y, m, d⟩ + 1) % 7 := by
  unfold pyWeekday
  rw [dayNumber_succ y m d hd]
  omega

/-- Weekday of day `i` of a month, as an offset from the weekday of day 1. -/
theorem pyWeekday_of_day (y m : ℕ) :
    ∀ i, 1 ≤ i → pyWeekday ⟨y, m, i⟩ = (pyWeekday ⟨y, m, 1⟩ + (i - 1)) % 7 := by
  intro i
  induction i with
  | zero => omega
  | succ n ih =>
    intro _
    by_cases hn : 1 ≤ n
    · rw [pyWeekday_succ y m n hn, ih hn]
      have : pyWeekday ⟨y, m, 1⟩ < 7 := Nat.mod_lt _ (by omega)
      omega
    · have h0 : n = 0 := by omega
      subst h0
      have hlt : pyWeekday ⟨y, m, 1⟩ < 7 := Nat.mod_lt _ (by omega)
      simp only [Nat.zero_add]
      omega

/-- The business-day count of the month depends only on the weekday of the
1st and the day of month. -/
def countFromW (w : ℕ) : ℕ → ℕ
  | 0 => 0
  | d + 1 => countFromW w d + (if (w + d) % 7 < 5 then 1 else 0)

theorem countWeekdays_eq_countFromW (y m : ℕ) :
    ∀ d, countWeekdays y m d = countFromW (pyWeekday ⟨y, m, 1⟩) d := by
  intro d
  induction d with
  | zero => rfl
  | succ n ih =>
    unfold countWeekdays countFromW
    rw [ih, pyWeekday_of_day y m (n + 1) (by omega)]
    simp

theorem monthLength_le (y m : ℕ) : monthLength y m ≤ 31 := by
  unfold monthLength
  split
  · split <;> omega
  · split <;> omega

/-- When the 1st of the month is a Saturday, the weekday count reaches 1
exactly on day 3 (the first Monday). -/
theorem countFromW_sat_eq_one : ∀ d, d < 32 → 1 ≤ d → (countFromW 5 d = 1 ↔ d = 3) := by
  decide

/-- Observation of one category of the returned task map, as the renderer's
`due_tasks[key]` lookup. -/
def lookupTasks (m : List (String × List String)) (k : String) : List String :=
  ((m.find? fun kv => kv.1 == k).map Prod.snd).getD []

theorem lookupTasks_monthly (rd : PyDate) (cfg : CadenceConfig) (ed : List String) :
    lookupTasks (build_due_tasks rd cfg ed) "monthly" =
      if (nth_business_day_of_month rd : ℤ) = cfg.monthly_review_business_day.getD 1
      then monthlyTasks else [] := rfl

/-! ## Claim theorems -/

/-- C1: for every snapshot list, watchlist, guardrail configuration and run
date, `evaluate_guardrails` returns the status `"MANUAL REVIEW REQUIRED"` iff
the trigger list it returns is non-empty and `"AUTO CLEAR"` otherwise, and no
other status value is ever returned. -/
theorem C1_evaluate_guardrails_status (snapshots : List Snapshot)
    (watchlist : List WatchlistItem) (max_missing stale_max : ℤ) (move_thr : ℚ)
    (earn_win : ℤ) (rd : PyDate) :
    ((evaluate_guardrails snapshots watchlist max_missing stale_max move_thr earn_win rd).1 =
        "MANUAL REVIEW REQUIRED" ↔
      (evaluate_guardrails snapshots watchlist max_missing stale_max move_thr earn_win rd).2.1 ≠ []) ∧
    ((evaluate_guardrails snapshots watchlist max_missing stale_max move_thr earn_win rd).1 =
        "AUTO CLEAR" ↔
      (evaluate_guardrails snapshots watchlist max_missing stale_max move_thr earn_win rd).2.1 = []) ∧
    ((evaluate_guardrails snapshots watchlist max_missing stale_max move_thr earn_win rd).1 =
        "AUTO CLEAR" ∨
      (evaluate_guardrails snapshots watchlist max_missing stale_max move_thr earn_win rd).1 =
        "MANUAL REVIEW REQUIRED") := by
  have hne : ("AUTO CLEAR" : String) ≠ "MANUAL REVIEW REQUIRED" := by decide
  unfold evaluate_guardrails
  set t := missingTriggers snapshots max_missing ++
    staleTriggers snapshots stale_max rd ++
    largeMoveTriggers snapshots move_thr ++
    earningsTriggers (earningsDueList watchlist earn_win rd) with ht
  by_cases h : t = [] <;> simp [h, hne, hne.symm] <;> tauto

/-- C10: for every run date, cadence configuration and earnings-due list,
`build_due_tasks` returns a map whose key set is exactly daily, weekly,
bi_monthly, monthly, earnings_window (each key always present), and the daily
list is never empty. -/
theorem C10_build_due_tasks_keys (rd : PyDate) (cfg : CadenceConfig)
    (earnings_due : List String) :
    (build_due_tasks rd cfg earnings_due).map Prod.fst =
      ["daily", "weekly", "bi_monthly", "monthly", "earnings_window"] ∧
    lookupTasks (build_due_tasks rd cfg earnings_due) "daily" = dailyTasks ∧
    dailyTasks ≠ [] := by
  refine ⟨rfl, rfl, by decide⟩

/-- C2 counterexample: 2026-06-06 is a Saturday (`pyWeekday = 5`), yet with
`monthlyReviewBusinessDay = 5` the monthly category is non-empty, because the
count of Monday-to-Friday dates from June 1 through June 6, 2026 is 5.  This
refutes the claim that a run date falling on a Saturday or Sunday never
yields a non-empty monthly list. -/
theorem C2_weekend_monthly_counterexample :
    pyWeekday ⟨2026, 6, 6⟩ = 5 ∧
    lookupTasks (build_due_tasks ⟨2026, 6, 6⟩ ⟨none, none, some 5⟩ []) "monthly" ≠ [] := by
  constructor
  · decide
  · rw [lookupTasks_monthly]
    decide

/-- C2 (amended): the monthly category is non-empty iff the count of
Monday-to-Friday dates from the 1st of the run date's month through the run
date inclusive equals `monthlyReviewBusinessDay`; a weekend run date can
therefore trigger the monthly tasks when that count (unchanged since the
preceding Friday) equals the configured ordinal.  For a month starting on a
Saturday with `monthlyReviewBusinessDay = 1`, the monthly tasks trigger
exactly on day 3 of the month, the first Monday. -/
theorem C2_monthly_cadence (rd : PyDate) (cfg : CadenceConfig) (ed : List String) :
    (lookupTasks (build_due_tasks rd cfg ed) "monthly" ≠ [] ↔
      (countWeekdays rd.year rd.month rd.day : ℤ) =
        cfg.monthly_review_business_day.getD 1) ∧
    (pyWeekday ⟨rd.year, rd.month, 1⟩ = 5 →
      cfg.monthly_review_business_day.getD 1 = 1 →
      1 ≤ rd.day → rd.day ≤ monthLength rd.year rd.month →
      (lookupTasks (build_due_tasks rd cfg ed) "monthly" ≠ [] ↔
        rd.day = 3 ∧ pyWeekday rd = 0)) := by
  have hmain : lookupTasks (build_due_tasks rd cfg ed) "monthly" ≠ [] ↔
      (countWeekdays rd.year rd.month rd.day : ℤ) =
        cfg.monthly_review_business_day.getD 1 := by
    have hnth : (nth_business_day_of_month rd : ℤ) =
        (countWeekdays rd.year rd.month rd.day : ℤ) := rfl
    rw [lookupTasks_monthly, hnth]
    by_cases h : (countWeekdays rd.year rd.month rd.day : ℤ) =
        cfg.monthly_review_business_day.getD 1
    · simp [h, monthlyTasks]
    · simp [h]
  refine ⟨hmain, ?_⟩
  intro h5 hcfg hd1 hdm
  rw [hmain, hcfg]
  have hcw : countWeekdays rd.year rd.month rd.day = countFromW 5 rd.day := by
    rw [countWeekdays_eq_countFromW, h5]
  have hle : rd.day < 32 := by
    have := monthLength_le rd.year rd.month
    omega
  constructor
  · intro hq
    have hone : countFromW 5 rd.day = 1 := by
      rw [← hcw]
      exact_mod_cast hq
    have hd3 : rd.day = 3 := (countFromW_sat_eq_one rd.day hle hd1).mp hone
    refine ⟨hd3, ?_⟩
    have heta : pyWeekday rd = pyWeekday ⟨rd.year, rd.month, rd.day⟩ := rfl
    rw [heta, pyWeekday_of_day rd.year rd.month rd.day hd1, h5, hd3]
  · rintro ⟨hd3, _⟩
    have hone : countFromW 5 rd.day = 1 := (countFromW_sat_eq_one rd.day hle hd1).mpr hd3
    rw [← hcw] at hone
    exact_mod_cast hone

/-- Witness for `C2_monthly_cadence`: August 2026 starts on a Saturday, and
with the default ordinal (1) the monthly tasks trigger on Monday, August 3. -/
theorem C2_monthly_cadence_witness :
    pyWeekday ⟨2026, 8, 1⟩ = 5 ∧
    lookupTasks (build_due_tasks ⟨2026, 8, 3⟩ ⟨none, none, none⟩ []) "monthly" ≠ [] := by
  refine ⟨by decide, ?_⟩
  exact ((C2_monthly_cadence ⟨2026, 8, 3⟩ ⟨none, none, none⟩ []).2 (by decide) (by decide)
    (by decide) (by decide)).mpr ⟨rfl, by decide⟩

/-- A sale row for the cluster-selling scenarios of the spec. -/
def mkSale (nm tradeDay : String) : InsiderTransaction :=
  ⟨"2026-01-10", tradeDay, nm, "Officer", "S - Sale", none, none, none, ""⟩

/-- Three distinct insiders selling on day 0, day 3 and day 6. -/
def clusterEx1 : List InsiderTransaction :=
  [mkSale "Alice A" "2026-01-01", mkSale "Bob B" "2026-01-04", mkSale "Carol C" "2026-01-07"]

/-- Three sales by the same insider on day 0, day 3 and day 6. -/
def clusterEx2 : List InsiderTransaction :=
  [mkSale "Alice A" "2026-01-01", mkSale "Alice A" "2026-01-04", mkSale "Alice A" "2026-01-07"]

/-- Two distinct insiders selling 10 days apart. -/
def clusterEx3 : List InsiderTransaction :=
  [mkSale "Alice A" "2026-01-01", mkSale "Bob B" "2026-01-11"]

/-- C4: `detect_cluster_selling` returns true iff, after keeping sale-marked
transactions with parseable trade dates, at least 3 records remain and some
record's date `d` anchors a window `[d, d + 7 days]` containing sale dates of
at least 3 distinct insider names; and the three concrete spec scenarios. -/
theorem C4_detect_cluster_selling (transactions : List InsiderTransaction) :
    (detect_cluster_selling transactions = true ↔
      3 ≤ (toSells transactions).length ∧
      ∃ p ∈ toSells transactions,
        3 ≤ distinctNamesInWindow (toSells transactions) p.1) ∧
    detect_cluster_selling clusterEx1 = true ∧
    detect_cluster_selling clusterEx2 = false ∧
    detect_cluster_selling clusterEx3 = false := by
  refine ⟨detect_cluster_selling_iff transactions, ?_, ?_, ?_⟩
  · exact (detect_cluster_selling_iff clusterEx1).mpr
      ⟨by decide, by unfold clusterWitness distinctNamesInWindow; decide⟩
  · have h2 : ¬(3 ≤ (toSells clusterEx2).length ∧ clusterWitness (toSells clusterEx2)) := by
      unfold clusterWitness distinctNamesInWindow
      decide
    exact Bool.eq_false_iff.mpr fun h => h2 ((detect_cluster_selling_iff clusterEx2).mp h)
  · have h3 : ¬(3 ≤ (toSells clusterEx3).length ∧ clusterWitness (toSells clusterEx3)) := by
      unfold clusterWitness distinctNamesInWindow
      decide
    exact Bool.eq_false_iff.mpr fun h => h3 ((detect_cluster_selling_iff clusterEx3).mp h)

/-- C9: cluster-selling detection is monotone under appending a transaction:
a positive verdict is preserved. -/
theorem C9_detect_monotone (l : List InsiderTransaction) (t : InsiderTransaction)
    (h : detect_cluster_selling l = true) :
    detect_cluster_selling (l ++ [t]) = true := by
  rw [detect_cluster_selling_iff] at h ⊢
  obtain ⟨hlen, p, hp, hcard⟩ := h
  have happ : toSells (l ++ [t]) = toSells l ++ toSells [t] := by
    simp [toSells]
  refine ⟨?_, p, ?_, ?_⟩
  · rw [happ, List.length_append]
    omega
  · rw [happ]
    exact List.mem_append_left _ hp
  · rw [happ]
    unfold distinctNamesInWindow at hcard ⊢
    rw [List.filter_append, List.map_append, List.toFinset_append]
    calc 3 ≤ (((toSells l).filter (inWindow p.1)).map Prod.snd).toFinset.card := hcard
      _ ≤ _ := Finset.card_le_card Finset.subset_union_left

/-- Witness for `C9_detect_monotone`: the first spec scenario stays positive
after appending an unrelated sale. -/
theorem C9_detect_monotone_witness :
    detect_cluster_selling (clusterEx1 ++ [mkSale "Dan D" "2026-03-01"]) = true :=
  C9_detect_monotone clusterEx1 (mkSale "Dan D" "2026-03-01")
    ((detect_cluster_selling_iff clusterEx1).mpr
      ⟨by decide, by unfold clusterWitness distinctNamesInWindow; decide⟩)

/-- Exact-rational form of the 100x ratio guard: the code's
`previous_close < current * 0.01 or previous_close > current * 100` says
exactly that one value exceeds 100 times the other. -/
theorem ratio_guard_iff (c p : ℚ) :
    (p < c * (1/100) ∨ c * 100 < p) ↔ (100 * p < c ∨ 100 * c < p) := by
  constructor
  · rintro (h | h)
    · left; linarith
    · right; linarith
  · rintro (h | h)
    · left; linarith
    · right; linarith

/-- C3: `compute_price_change_pct` returns `none` exactly when an input is
missing, `previous_close = 0`, `current = previous_close`, or the ratio
between the two values exceeds 100x in either direction; in every other case
it returns `round(((current - previous_close) / previous_close) * 100, 2)`;
e.g. current 110 and previous close 100 give +10.0. -/
theorem C3_compute_price_change_pct (current previous_close : Option ℚ) :
    (compute_price_change_pct current previous_close = none ↔
      current = none ∨ previous_close = none ∨ previous_close = some 0 ∨
      current = previous_close ∨
      ∃ c p : ℚ, current = some c ∧ previous_close = some p ∧
        (100 * p < c ∨ 100 * c < p)) ∧
    (∀ c p : ℚ, current = some c → previous_close = some p → p ≠ 0 → c ≠ p →
      ¬(100 * p < c) → ¬(100 * c < p) →
      compute_price_change_pct current previous_close =
        some (round2 ((c - p) / p * 100))) ∧
    compute_price_change_pct (some 110) (some 100) = some 10 := by
  have hre : roundHalfEven ((10 : ℚ) * 100) = 1000 := by
    unfold roundHalfEven
    norm_num
  have hr2 : round2 (10 : ℚ) = 10 := by
    unfold round2
    rw [hre]
    norm_num
  refine ⟨?_, ?_, ?_⟩
  · cases current with
    | none => simp [compute_price_change_pct]
    | some c =>
      cases previous_close with
      | none => simp [compute_price_change_pct]
      | some p =>
        simp only [compute_price_change_pct, Option.some.injEq, reduceCtorEq,
          false_or, exists_and_left, exists_eq_left']
        split_ifs with h0 h1 h2 <;> simp_all
        · rcases h2 with h | h
          · left; linarith
          · right; linarith
        · exact ⟨by linarith [h2.1], by linarith [h2.2]⟩
  · intro c p hc hp h0 h1 hg1 hg2
    subst hc
    subst hp
    have hg : ¬(p < c * (1/100) ∨ c * 100 < p) := by
      rw [ratio_guard_iff]
      tauto
    simp only [compute_price_change_pct, if_neg h0, if_neg h1, if_neg hg]
  · have h10 : ((110 : ℚ) - 100) / 100 * 100 = 10 := by norm_num
    simp only [compute_price_change_pct]
    rw [if_neg (by norm_num), if_neg (by norm_num), if_neg (by push_neg; constructor <;> norm_num),
      h10, hr2]

/-- Witness for `C3_compute_price_change_pct` at current 110, previous close
100: no null condition applies and the rounded percentage is returned. -/
theorem C3_compute_price_change_pct_witness :
    compute_price_change_pct (some 110) (some 100) =
      some (round2 ((110 - 100) / 100 * 100)) :=
  (C3_compute_price_change_pct (some 110) (some 100)).2.1 110 100 rfl rfl
    (by norm_num) (by norm_num) (by norm_num) (by norm_num)

/-- A snapshot whose `error` is the empty string but whose price is present. -/
def emptyErrorSnap : Snapshot :=
  ⟨"TST", "Test Co", some 1, none, none, none, none, none, none, none, some ""⟩

/-- C5 counterexample: this snapshot's `error` field is set (to `""`), so the
claim counts it missing and predicts a trigger at `maxMissingTickers = 0`;
the code tests Python truthiness, under which `""` is falsy, so it emits no
trigger at all. -/
theorem C5_error_truthiness_counterexample :
    emptyErrorSnap.error.isSome = true ∧
    ((([emptyErrorSnap] : List Snapshot).filter
        fun s => s.error.isSome || s.price.isNone).length : ℤ) > 0 ∧
    missingTriggers [emptyErrorSnap] 0 = [] ∧
    (evaluate_guardrails [emptyErrorSnap] [] 0 1 7 1 ⟨2026, 10, 12⟩).2.1 = [] := by
  refine ⟨rfl, by decide, rfl, rfl⟩

/-- C5 (amended): with "error field set" read as Python truthiness (a
non-empty error string), the missing-data trigger is emitted iff the number
of snapshots with a truthy error or an absent price strictly exceeds
`maxMissingTickers` (so exactly k+1 such snapshots trigger it and exactly k
do not), and when emitted it is a single trigger listing the affected tickers
sorted lexicographically. -/
theorem C5_missing_data_rule (snapshots : List Snapshot) (k : ℤ) :
    (missingTriggers snapshots k ≠ [] ↔
      ((missingTickers snapshots).length : ℤ) > k) ∧
    (((missingTickers snapshots).length : ℤ) = k + 1 →
      missingTriggers snapshots k ≠ []) ∧
    (((missingTickers snapshots).length : ℤ) = k →
      missingTriggers snapshots k = []) ∧
    (∃ sortedTickers : List String,
      List.Perm sortedTickers (missingTickers snapshots) ∧
      sortedTickers.Sorted (· ≤ ·) ∧
      (((missingTickers snapshots).length : ℤ) > k →
        missingTriggers snapshots k =
          ["Missing critical data for " ++ toString (missingTickers snapshots).length ++
            " ticker(s): " ++ String.intercalate ", " sortedTickers])) := by
  have hiff : missingTriggers snapshots k ≠ [] ↔
      ((missingTickers snapshots).length : ℤ) > k := by
    unfold missingTriggers
    by_cases h : ((missingTickers snapshots).length : ℤ) > k
    · simp [h]
    · simp [h]
  refine ⟨hiff, ?_, ?_, ?_⟩
  · intro h
    rw [hiff, h]
    omega
  · intro h
    by_contra hne
    have := hiff.mp hne
    omega
  · refine ⟨(missingTickers snapshots).mergeSort fun a b => decide (a ≤ b), ?_, ?_, ?_⟩
    · exact List.mergeSort_perm _ _
    · have hp := @List.sorted_mergeSort String (fun a b : String => decide (a ≤ b))
        (fun a b c hab hbc => by
          simp only [decide_eq_true_eq] at *
          exact le_trans hab hbc)
        (fun a b => by simp [le_total])
        (missingTickers snapshots)
      exact hp.imp fun h => by simpa using h
    · intro h
      unfold missingTriggers
      rw [if_pos h]

/-- A snapshot with a truthy fetch error. -/
def errSnap : Snapshot :=
  ⟨"ZZZ", "Z Corp", none, none, none, none, none, none, none, none, some "fetch failed"⟩

/-- Witness for `C5_missing_data_rule`: one truthy-error snapshot with
`maxMissingTickers = 0` emits the missing-data trigger. -/
theorem C5_missing_data_rule_witness : missingTriggers [errSnap] 0 ≠ [] :=
  (C5_missing_data_rule [errSnap] 0).2.1 (by decide)

/-- A snapshot whose last trade date lies in the future of the run date used
in the staleness witness. -/
def futureSnap : Snapshot :=
  ⟨"FUT", "Future Co", some 1, none, none, none, none, none, none, some ⟨2026, 10, 13⟩, none⟩

/-- C6: a ticker is flagged stale iff its snapshot has both price and last
trade date present and `(runDate - lastTradeDate).days` strictly exceeds
`staleDataMaxDays`; a negative age never flags given a non-negative
threshold; the flagged entries keep snapshot order and yield exactly one
trigger. -/
theorem C6_staleness_rule (snapshots : List Snapshot) (stale_max : ℤ) (rd : PyDate) :
    (∀ snap : Snapshot,
      ((staleEntry stale_max rd snap).isSome = true ↔
        ∃ ltd, snap.last_trade_date = some ltd ∧ snap.price.isSome = true ∧
          stale_max < dateDiffDays rd ltd)) ∧
    (0 ≤ stale_max →
      ∀ (snap : Snapshot) (ltd : PyDate), snap.last_trade_date = some ltd →
        dateDiffDays rd ltd < 0 → staleEntry stale_max rd snap = none) ∧
    (staleEntries snapshots stale_max rd ≠ [] →
      staleTriggers snapshots stale_max rd =
        ["Stale market timestamps beyond allowed window: " ++
          String.intercalate ", " (staleEntries snapshots stale_max rd)]) ∧
    staleEntries snapshots stale_max rd =
      snapshots.filterMap (staleEntry stale_max rd) := by
  refine ⟨?_, ?_, ?_, rfl⟩
  · intro snap
    unfold staleEntry
    cases hl : snap.last_trade_date with
    | none => simp [hl]
    | some ltd =>
      cases hp : snap.price with
      | none => simp [hl, hp]
      | some price =>
        by_cases hage : dateDiffDays rd ltd > stale_max
        · simp [hl, hp, hage]
        · simp [hl, hp, hage]
  · intro hmax snap ltd hl hneg
    unfold staleEntry
    cases hp : snap.price with
    | none => rw [hl]
    | some price =>
      rw [hl]
      have hno : ¬dateDiffDays rd ltd > stale_max := by omega
      simp [hno]
  · intro h
    unfold staleTriggers
    rw [if_pos h]

/-- Witness for `C6_staleness_rule`: a last trade date one day after the run
date (negative age) is not flagged with threshold 1. -/
theorem C6_staleness_rule_witness : staleEntry 1 ⟨2026, 10, 12⟩ futureSnap = none :=
  (C6_staleness_rule [] 1 ⟨2026, 10, 12⟩).2.1 (by decide) futureSnap ⟨2026, 10, 13⟩ rfl
    (by decide)

/-- C7: a watchlist item with a known earnings date is collected into
`earnings_due` iff `abs((earningsDate - runDate).days)` is at most
`earningsWindowDays`; the relation label is "today" at delta 0,
"N day(s) ago" for negative delta and "in N day(s)" for positive delta;
`earnings_due` keeps watchlist order, is returned as the third component, and
when non-empty yields exactly one trigger joining the descriptions with
"; ". -/
theorem C7_earnings_window_rule (snapshots : List Snapshot)
    (watchlist : List WatchlistItem) (max_missing stale_max : ℤ) (move_thr : ℚ)
    (earn_win : ℤ) (rd : PyDate) :
    (∀ (item : WatchlistItem) (ed : PyDate), item.earnings_date = some ed →
      ((earningsEntry earn_win rd item).isSome = true ↔
        |dateDiffDays ed rd| ≤ earn_win)) ∧
    earningsRelation 0 = "today" ∧
    (∀ delta : ℤ, delta < 0 →
      earningsRelation delta = toString delta.natAbs ++ " day(s) ago") ∧
    (∀ delta : ℤ, 0 < delta →
      earningsRelation delta = "in " ++ toString delta.natAbs ++ " day(s)") ∧
    earningsDueList watchlist earn_win rd =
      watchlist.filterMap (earningsEntry earn_win rd) ∧
    (evaluate_guardrails snapshots watchlist max_missing stale_max move_thr
      earn_win rd).2.2 = earningsDueList watchlist earn_win rd ∧
    (earningsDueList watchlist earn_win rd ≠ [] →
      earningsTriggers (earningsDueList watchlist earn_win rd) =
        ["Earnings window active: " ++
          String.intercalate "; " (earningsDueList watchlist earn_win rd)]) := by
  refine ⟨?_, rfl, ?_, ?_, rfl, rfl, ?_⟩
  · intro item ed hed
    unfold earningsEntry
    rw [hed]
    by_cases h : |dateDiffDays ed rd| ≤ earn_win
    · simp [h]
    · simp [h]
  · intro delta hneg
    unfold earningsRelation
    rw [if_pos hneg]
  · intro delta hpos
    unfold earningsRelation
    rw [if_neg (by omega), if_pos hpos]
  · intro h
    unfold earningsTriggers
    rw [if_pos h]

/-- A watchlist item whose earnings date equals the witness run date. -/
def dueItem : WatchlistItem := ⟨"NVDA", "NVIDIA", some ⟨2026, 10, 12⟩⟩

/-- Witness for `C7_earnings_window_rule`: an item with earnings today is
collected with window 1. -/
theorem C7_earnings_window_rule_witness :
    (earningsEntry 1 ⟨2026, 10, 12⟩ dueItem).isSome = true :=
  ((C7_earnings_window_rule [] [] 0 1 7 1 ⟨2026, 10, 12⟩).1 dueItem ⟨2026, 10, 12⟩
    rfl).mpr (by decide)

/-- Numeric YAML scalars: the well-typed guardrail values of the data model
(`int(x)` and `float(x)` succeed on exactly these). -/
def isNumeric : PyVal → Bool
  | .vbool _ => true
  | .vint _ => true
  | .vfloat _ => true
  | _ => false

theorem pyInt_isSome_of_numeric {v : PyVal} (h : isNumeric v = true) :
    (pyInt v).isSome = true := by
  cases v <;> simp_all [pyInt, isNumeric]

theorem pyFloat_isSome_of_numeric {v : PyVal} (h : isNumeric v = true) :
    (pyFloat v).isSome = true := by
  cases v <;> simp_all [pyFloat, isNumeric]

/-- C8 counterexample: a present but non-numeric guardrail value makes the
`int(...)` coercion raise `ValueError`, so `evaluate_guardrails` does raise
on an ill-typed configuration instead of degrading. -/
theorem C8_illtyped_config_counterexample :
    evaluate_guardrails_checked [] [] ⟨some (.vstr "oops"), none, none, none⟩
      ⟨2026, 10, 12⟩ = none := rfl

/-- C8 (amended): `evaluate_guardrails` never raises provided every present
guardrail configuration value is numeric (bool, int or float, per the
GuardrailConfig data model): it then returns a (status, triggers,
earningsDue) triple for every snapshot list, watchlist and run date, with
absent values falling back to the documented defaults and absent snapshot or
watchlist fields degrading to "no trigger from this rule".  A present
non-numeric value (e.g. a non-numeric string or null) raises instead. -/
theorem C8_no_raise (snapshots : List Snapshot) (watchlist : List WatchlistItem)
    (g : GuardrailsConfig) (rd : PyDate)
    (h1 : ∀ v ∈ g.max_missing_tickers, isNumeric v = true)
    (h2 : ∀ v ∈ g.stale_data_max_days, isNumeric v = true)
    (h3 : ∀ v ∈ g.price_move_pct_threshold, isNumeric v = true)
    (h4 : ∀ v ∈ g.earnings_window_days, isNumeric v = true) :
    ∃ out, evaluate_guardrails_checked snapshots watchlist g rd = some out := by
  have e1 : (pyInt (g.max_missing_tickers.getD (.vint 0))).isSome = true := by
    cases hv : g.max_missing_tickers with
    | none => rfl
    | some v => exact pyInt_isSome_of_numeric (h1 v (Option.mem_def.mpr hv))
  have e2 : (pyInt (g.stale_data_max_days.getD (.vint 1))).isSome = true := by
    cases hv : g.stale_data_max_days with
    | none => rfl
    | some v => exact pyInt_isSome_of_numeric (h2 v (Option.mem_def.mpr hv))
  have e3 : (pyFloat (g.price_move_pct_threshold.getD (.vfloat 7))).isSome = true := by
    cases hv : g.price_move_pct_threshold with
    | none => rfl
    | some v => exact pyFloat_isSome_of_numeric (h3 v (Option.mem_def.mpr hv))
  have e4 : (pyInt (g.earnings_window_days.getD (.vint 1))).isSome = true := by
    cases hv : g.earnings_window_days with
    | none => rfl
    | some v => exact pyInt_isSome_of_numeric (h4 v (Option.mem_def.mpr hv))
  obtain ⟨a, ha⟩ := Option.isSome_iff_exists.mp e1
  obtain ⟨b, hb⟩ := Option.isSome_iff_exists.mp e2
  obtain ⟨c, hc⟩ := Option.isSome_iff_exists.mp e3
  obtain ⟨d, hd⟩ := Option.isSome_iff_exists.mp e4
  exact ⟨evaluate_guardrails snapshots watchlist a b c d rd,
    by simp [evaluate_guardrails_checked, ha, hb, hc, hd]⟩

/-- Witness for `C8_no_raise`: a fully-typed configuration (the documented
defaults) yields a result for an empty run. -/
theorem C8_no_raise_witness :
    ∃ out, evaluate_guardrails_checked [] []
      ⟨some (.vint 0), some (.vint 1), some (.vfloat 7), some (.vint 1)⟩
      ⟨2026, 10, 12⟩ = some out :=
  C8_no_raise [] [] ⟨some (.vint 0), some (.vint 1), some (.vfloat 7), some (.vint 1)⟩
    ⟨2026, 10, 12⟩ (by simp [isNumeric]) (by simp [isNumeric]) (by simp [isNumeric])
    (by simp [isNumeric])
